import Mathlib

/-!
Verification development for the fuse_ssd_simulator storage accelerator.

The definitions below are a shallow embedding of the C++ sources:
  * `src/fuse_ssd_simulator/src/storage_accelerator/storage_accelerator.cpp`
    (the StorageAccelerator operations),
  * `src/unnamed/part_000` (the MetadataManager: constructor, addMetadata,
    removeMetadata, getMetadata, exists, listDirectory — note that
    `getMetadata` returns `std::make_shared<FileMetadata>(it->second)`,
    a fresh copy of the map entry),
  * `src/unnamed/part_008` (the SSD_Simulator drive worker `processIO`
    and `enqueueIO`),
  * `src/unnamed/part_002` (the drive header: queue capacity, `isQueueFull`).

Bytes are modelled as `Nat`, byte vectors as `List Nat`, the unordered maps
as association lists with unique keys (insert = cons after erasing the key,
which is observably the map's overwrite), and POSIX time as `Nat` supplied
by the caller (mirroring `time(nullptr)`).

Drive requests in the C++ are pushed on a per-drive queue and executed by a
worker thread which fulfils a one-shot promise.  Every accelerator operation
modelled here submits a request and synchronously waits for its completion;
in a quiescent system (idle drive, empty queue) that round trip is exactly
`processRequest` applied to the drive's storage, which is how `driveCall`
models it.  Waits that can time out take the timeout outcome as an explicit
Boolean input, since it is decided by the scheduler, not by the program
state.  Block-routing (hash of the chunk key, modulo the number of drives,
then the load-balancer override) is abstracted by a `route` function from
keys to drive indices; every theorem about the accelerator holds for an
arbitrary `route`.
-/

namespace FuseSsd

/-! ## Constants (errno values, mode bits, sizes) -/

def ENOENT : Int := 2
def Eio : Int := 5
def EBUSY : Int := 16
def EEXIST : Int := 17
def ENOTDIR : Int := 20
def EISDIR : Int := 21
def ENOTEMPTY : Int := 39
def ETIMEDOUT : Int := 110

/-- POSIX `S_IFMT`, the file-type mask. -/
def SIFMT : Nat := 0o170000
/-- POSIX `S_IFREG`, the regular-file type bit. -/
def SIFREG : Nat := 0o100000
/-- POSIX `S_IFDIR`, the directory type bit. -/
def SIFDIR : Nat := 0o040000

/-- `BLOCK_SIZE` from the accelerator and drive headers. -/
def BLOCK_SIZE : Nat := 4096
/-- `MAX_QUEUE_SIZE` from the drive header (`src/unnamed/part_002`). -/
def MAX_QUEUE_SIZE : Nat := 1000

/-! ## File metadata (include/storage_accelerator/file_metadata.h) -/

structure FileMetadata where
  mode : Nat
  nlink : Nat
  uid : Nat
  gid : Nat
  size : Nat
  atime : Nat
  mtime : Nat
  ctime : Nat
deriving Repr, DecidableEq

/-! ## Association-list maps

Both `std::unordered_map`s of the program (path to metadata, path to byte
vector) are modelled as association lists with unique keys. -/

def mapLookup {α : Type} : List (String × α) → String → Option α
  | [], _ => none
  | e :: es, p => if e.1 = p then some e.2 else mapLookup es p

def mapErase {α : Type} : List (String × α) → String → List (String × α)
  | [], _ => []
  | e :: es, p => if e.1 = p then mapErase es p else e :: mapErase es p

/-- Map assignment `m[p] = v`: overwrite the binding of `p`. -/
def mapInsert {α : Type} (m : List (String × α)) (p : String) (v : α) :
    List (String × α) :=
  (p, v) :: mapErase m p

/-! ## MetadataManager (src/unnamed/part_000, lines 717-783) -/

def MetaMap := List (String × FileMetadata)
deriving DecidableEq

/-- MetadataManager::getMetadata: find the entry and return a fresh copy
(`std::make_shared<FileMetadata>(it->second)`), or null.  Mutations a caller
makes to the returned record are therefore never visible in the map. -/
def getMetadata (m : MetaMap) (p : String) : Option FileMetadata :=
  mapLookup m p

/-- MetadataManager::addMetadata: `metadata_map_[path] = metadata`. -/
def addMetadata (m : MetaMap) (p : String) (md : FileMetadata) : MetaMap :=
  mapInsert m p md

/-- MetadataManager::removeMetadata: `metadata_map_.erase(path)`. -/
def removeMetadata (m : MetaMap) (p : String) : MetaMap :=
  mapErase m p

/-- MetadataManager::exists: `metadata_map_.find(path) != metadata_map_.end()`. -/
def existsMeta (m : MetaMap) (p : String) : Bool :=
  (mapLookup m p).isSome

/-- Character-list test that `pre` is a prefix of `k` (`key.find(prefix) == 0`). -/
def strStarts : List Char → List Char → Bool
  | [], _ => true
  | _ :: _, [] => false
  | c :: cs, k :: ks => c == k && strStarts cs ks

/-- The part of `remaining` before its first slash (`remaining.find('/')`
followed by `substr(0, pos)`); the whole string when there is no slash. -/
def firstComp : List Char → List Char
  | [] => []
  | c :: cs => if c == '/' then [] else c :: firstComp cs

/-- The loop body of MetadataManager::listDirectory over the map's keys,
collecting de-duplicated first components of keys strictly under `pre`. -/
def listDirAux (pre : List Char) : List (List Char) → List (List Char) → List (List Char)
  | [], acc => acc
  | k :: ks, acc =>
    if strStarts pre k && k != pre then
      let rem := firstComp (k.drop pre.length)
      if rem != [] && !(acc.contains rem) then listDirAux pre ks (acc ++ [rem])
      else listDirAux pre ks acc
    else listDirAux pre ks acc

/-- MetadataManager::listDirectory: append a trailing slash to the path when
it has none (`prefix.back() != '/'`), then scan all keys. -/
def listDirectory (m : MetaMap) (path : String) : List String :=
  let pre := if path.data.getLast? = some '/' then path else path ++ "/"
  (listDirAux pre.data (m.map (fun e => e.1.data)) []).map (fun l => String.mk l)

/-! ## The drive (src/unnamed/part_002 and part_008) -/

inductive IoType where
  | create | read | write | delete | truncate
  | mkdir | rmdir | rename | chmod | chown | utimens
deriving Repr, DecidableEq

/-- An IORequest.  `data` models the `request.size` bytes reachable through
`request.buffer` for a WRITE; `hasPromise` whether `request.promise` is set. -/
structure IoRequest where
  type : IoType
  path : String
  size : Nat
  offset : Nat
  data : List Nat
  hasPromise : Bool
deriving Repr, DecidableEq

/-- A drive's in-memory storage: `std::unordered_map<std::string, std::vector<char>>`. -/
def DriveStore := List (String × List Nat)
deriving DecidableEq

def dsLookup (s : DriveStore) (p : String) : Option (List Nat) :=
  mapLookup s p

/-- What executing one dequeued request leaves behind: the drive storage, the
signed result the worker sets on the promise, and (for READ) the bytes copied
out into the caller's buffer. -/
structure IoOutcome where
  store : DriveStore
  result : Int
  readData : List Nat
deriving DecidableEq

/-- `std::vector::resize(n, 0)`: drop the tail on shrink, zero-fill on grow. -/
def vecResize (v : List Nat) (n : Nat) : List Nat :=
  if n ≤ v.length then v.take n else v ++ List.replicate (n - v.length) 0

/-- The switch of SSD_Simulator::processIO in `src/unnamed/part_008` executing
one request against the drive storage.  The switch handles only READ, WRITE
and TRUNCATE; every other type — DELETE included, the switch ends with the
comment "Add other cases as needed" — falls through with `result = 0` and no
change to the storage. -/
def processRequest (st : DriveStore) (req : IoRequest) : IoOutcome :=
  match req.type with
  | .read =>
    match dsLookup st req.path with
    | some v =>
      let available := if v.length > req.offset then v.length - req.offset else 0
      let toRead := min req.size available
      { store := st, result := Int.ofNat toRead,
        readData := (v.drop req.offset).take toRead }
    | none => { store := st, result := -ENOENT, readData := [] }
  | .write =>
    let cur := (dsLookup st req.path).getD []
    let grown := if req.offset + req.size > cur.length
      then cur ++ List.replicate (req.offset + req.size - cur.length) 0 else cur
    let written := grown.take req.offset ++ req.data.take req.size
      ++ grown.drop (req.offset + req.size)
    { store := mapInsert st req.path written, result := Int.ofNat req.size,
      readData := [] }
  | .truncate =>
    match dsLookup st req.path with
    | some v =>
      { store := mapInsert st req.path (vecResize v req.size), result := 0,
        readData := [] }
    | none => { store := st, result := -ENOENT, readData := [] }
  | _ => { store := st, result := 0, readData := [] }

/-- SSD_Simulator::isQueueFull: `io_queue_.size() >= MAX_QUEUE_SIZE`. -/
def isQueueFull (q : List IoRequest) : Bool :=
  MAX_QUEUE_SIZE ≤ q.length

/-- SSD_Simulator::enqueueIO (`src/unnamed/part_008`): when the queue is full,
complete the request's promise (when it has one) with `-EBUSY` and return
without pushing; otherwise push the request and notify the worker.  The second
component is the value, if any, set on the promise by the submission itself. -/
def enqueueIo (q : List IoRequest) (req : IoRequest) :
    List IoRequest × Option Int :=
  if isQueueFull q then
    (q, if req.hasPromise then some (-EBUSY) else none)
  else
    (q ++ [req], none)

/-! ## The Storage Accelerator
(src/fuse_ssd_simulator/src/storage_accelerator/storage_accelerator.cpp)

`route` abstracts `selectDrive` / `getDriveIndex`: the drive index chosen for
a whole path or for a chunk key (keyed hash modulo the number of drives, then
the load balancer's override).  The theorems below hold for every `route`. -/

structure AccelState where
  ns : MetaMap
  drives : List DriveStore
deriving DecidableEq

/-- Submit a request to drive `i` and wait for its completion.  On an idle
drive this is the worker's `processRequest` applied to that drive's storage;
the caller receives the promise's value and, for READ, the copied-out bytes. -/
def driveCall (st : AccelState) (i : Nat) (req : IoRequest) :
    AccelState × Int × List Nat :=
  let oc := processRequest (st.drives.getD i []) req
  ({ st with drives := st.drives.set i oc.store }, oc.result, oc.readData)

def readRequest (path : String) (size offset : Nat) : IoRequest :=
  { type := .read, path := path, size := size, offset := offset, data := [],
    hasPromise := true }

def writeRequest (path : String) (data : List Nat) (size offset : Nat) : IoRequest :=
  { type := .write, path := path, size := size, offset := offset, data := data,
    hasPromise := true }

def truncRequest (path : String) (size : Nat) : IoRequest :=
  { type := .truncate, path := path, size := size, offset := 0, data := [],
    hasPromise := true }

def deleteRequest (path : String) : IoRequest :=
  { type := .delete, path := path, size := 0, offset := 0, data := [],
    hasPromise := true }

/-- The block key `path + ":" + std::to_string(offset)`. -/
def chunkKey (path : String) (off : Nat) : String :=
  path ++ ":" ++ toString off

/-- StorageAccelerator::createFile.  `uid`/`gid` model `getuid()`/`getgid()`,
`now` models `time(nullptr)`. -/
def createFile (st : AccelState) (path : String) (mode : Nat)
    (uid gid now : Nat) : Int × AccelState :=
  if existsMeta st.ns path then (-EEXIST, st)
  else
    let md : FileMetadata :=
      { mode := SIFREG ||| (mode &&& 0o777), nlink := 1, uid := uid, gid := gid,
        size := 0, atime := now, mtime := now, ctime := now }
    (0, { st with ns := addMetadata st.ns path md })

/-- StorageAccelerator::createDirectory. -/
def createDirectory (st : AccelState) (path : String) (mode : Nat)
    (uid gid now : Nat) : Int × AccelState :=
  if existsMeta st.ns path then (-EEXIST, st)
  else
    let md : FileMetadata :=
      { mode := SIFDIR ||| (mode &&& 0o777), nlink := 2, uid := uid, gid := gid,
        size := 0, atime := now, mtime := now, ctime := now }
    (0, { st with ns := addMetadata st.ns path md })

/-- StorageAccelerator::deleteFile.  The DELETE request is sent to the
selected drive and awaited with a 5-second deadline; `timedOut` is true when
that deadline expires first, in which case the function returns `-ETIMEDOUT`
before touching the namespace.  (The worker of `src/unnamed/part_008` has no
DELETE case, so the drive storage is unchanged either way.) -/
def deleteFile (route : String → Nat) (st : AccelState) (path : String)
    (timedOut : Bool) : Int × AccelState :=
  match getMetadata st.ns path with
  | none => (-ENOENT, st)
  | some md =>
    if (md.mode &&& SIFMT) ≠ SIFREG then (-EISDIR, st)
    else if timedOut then (-ETIMEDOUT, st)
    else
      let c := driveCall st (route path) (deleteRequest path)
      (0, { c.1 with ns := removeMetadata c.1.ns path })

/-- StorageAccelerator::removeDirectory. -/
def removeDirectory (st : AccelState) (path : String) : Int × AccelState :=
  match getMetadata st.ns path with
  | none => (-ENOENT, st)
  | some md =>
    if (md.mode &&& SIFMT) ≠ SIFDIR then (-ENOTDIR, st)
    else if listDirectory st.ns path ≠ [] then (-ENOTEMPTY, st)
    else (0, { st with ns := removeMetadata st.ns path })

/-- StorageAccelerator::chmodFile.  The record obtained from
MetadataManager::getMetadata is a fresh copy of the map entry; the C++
assigns the new mode and ctime to that copy and never writes it back, so the
namespace is returned unchanged — `updatedCopy` is the mutation the source
performs on the snapshot. -/
def chmodFile (st : AccelState) (path : String) (mode : Nat) (now : Nat) :
    Int × AccelState :=
  match getMetadata st.ns path with
  | none => (-ENOENT, st)
  | some md =>
    let updatedCopy :=
      { md with mode := (md.mode &&& SIFMT) ||| (mode &&& 0o7777), ctime := now }
    let _ := updatedCopy
    (0, st)

/-- StorageAccelerator::chownFile: mutates uid, gid and ctime of the snapshot
copy, which is dropped, as in `chmodFile`. -/
def chownFile (st : AccelState) (path : String) (uid gid : Nat) (now : Nat) :
    Int × AccelState :=
  match getMetadata st.ns path with
  | none => (-ENOENT, st)
  | some md =>
    let updatedCopy := { md with uid := uid, gid := gid, ctime := now }
    let _ := updatedCopy
    (0, st)

/-- StorageAccelerator::utimensFile: mutates atime and mtime of the snapshot
copy, which is dropped. -/
def utimensFile (st : AccelState) (path : String) (anew mnew : Nat) :
    Int × AccelState :=
  match getMetadata st.ns path with
  | none => (-ENOENT, st)
  | some md =>
    let updatedCopy := { md with atime := anew, mtime := mnew }
    let _ := updatedCopy
    (0, st)

/-- StorageAccelerator::truncateFile: namespace checks, then a TRUNCATE
request to the selected drive with a 5-second deadline; a negative drive
result is returned as-is.  On success the size/mtime/ctime assignment is made
on the snapshot copy and dropped. -/
def truncateFile (route : String → Nat) (st : AccelState) (path : String)
    (size : Nat) (timedOut : Bool) (now : Nat) : Int × AccelState :=
  match getMetadata st.ns path with
  | none => (-ENOENT, st)
  | some md =>
    if (md.mode &&& SIFMT) ≠ SIFREG then (-EISDIR, st)
    else if timedOut then (-ETIMEDOUT, st)
    else
      let c := driveCall st (route path) (truncRequest path size)
      if c.2.1 < 0 then (c.2.1, c.1)
      else
        let updatedCopy := { md with size := size, mtime := now, ctime := now }
        let _ := updatedCopy
        (0, c.1)

/-- The `while (remaining > 0)` loop of StorageAccelerator::readFile.  Each
iteration reads one chunk of at most `BLOCK_SIZE` bytes from the drive the
chunk key routes to; a negative chunk result returns immediately with that
value.  `fuel` bounds the number of iterations the model unfolds: `none`
means the C++ loop has not returned within `fuel` iterations (a chunk result
of 0 leaves `remaining` unchanged, so the loop can run forever). -/
def readLoop (route : String → Nat) (path : String) (offset : Nat) :
    Nat → AccelState → Nat → Nat → List Nat → Option Int × AccelState × List Nat
  | fuel, st, total, remaining, acc =>
    if remaining = 0 then (some (Int.ofNat total), st, acc)
    else
      match fuel with
      | 0 => (none, st, acc)
      | fuel + 1 =>
        let blockSize := min remaining BLOCK_SIZE
        let i := route (chunkKey path (offset + total))
        let c := driveCall st i (readRequest path blockSize (offset + total))
        if c.2.1 < 0 then (some c.2.1, c.1, acc)
        else readLoop route path offset fuel c.1 (total + c.2.1.toNat)
          (remaining - c.2.1.toNat) (acc ++ c.2.2)

/-- StorageAccelerator::readFile.  Absent path fails `-ENOENT`; an offset at
or past `meta.size` returns 0 at once; otherwise `size` is capped to
`meta.size - offset` and the block loop runs.  The final atime assignment is
made on the snapshot copy and dropped, so the state after the loop is
returned as-is. -/
def readFile (route : String → Nat) (st : AccelState) (path : String)
    (size offset : Nat) (fuel : Nat) : Option Int × AccelState × List Nat :=
  match getMetadata st.ns path with
  | none => (some (-ENOENT), st, [])
  | some md =>
    if md.size ≤ offset then (some 0, st, [])
    else
      let remaining := min size (md.size - offset)
      readLoop route path offset fuel st 0 remaining []

/-- The `while (remaining > 0)` loop of StorageAccelerator::writeFile;
`pending` is the not-yet-written tail of the caller's buffer. -/
def writeLoop (route : String → Nat) (path : String) (offset : Nat) :
    Nat → AccelState → Nat → List Nat → Option Int × AccelState
  | fuel, st, total, pending =>
    if pending.length = 0 then (some (Int.ofNat total), st)
    else
      match fuel with
      | 0 => (none, st)
      | fuel + 1 =>
        let blockSize := min pending.length BLOCK_SIZE
        let i := route (chunkKey path (offset + total))
        let c := driveCall st i
          (writeRequest path (pending.take blockSize) blockSize (offset + total))
        if c.2.1 < 0 then (some c.2.1, c.1)
        else writeLoop route path offset fuel c.1 (total + c.2.1.toNat)
          (pending.drop c.2.1.toNat)

/-- StorageAccelerator::writeFile.  The closing mtime/size update is applied
to the snapshot copy returned by MetadataManager::getMetadata and never
written back: the namespace leaves the call as it entered it. -/
def writeFile (route : String → Nat) (st : AccelState) (path : String)
    (data : List Nat) (offset : Nat) (fuel : Nat) : Option Int × AccelState :=
  match getMetadata st.ns path with
  | none => (some (-ENOENT), st)
  | some md =>
    let r := writeLoop route path offset fuel st 0 data
    let updatedCopy := { md with size := max md.size (offset + data.length) }
    let _ := updatedCopy
    r

/-- The cross-drive copy loop of StorageAccelerator::renameFile: READ a chunk
from the source drive, on a negative result return `-Eio`; WRITE the bytes
read to the destination drive, on a negative result return `-Eio`; advance by
the bytes written.  `none` when the loop has not returned within `fuel`
iterations. -/
def copyLoop (srcPath dstPath : String) (si di : Nat) (size : Nat) :
    Nat → AccelState → Nat → Option Int × AccelState
  | fuel, st, total =>
    if size ≤ total then (some 0, st)
    else
      match fuel with
      | 0 => (none, st)
      | fuel + 1 =>
        let toMove := min (size - total) BLOCK_SIZE
        let r := driveCall st si (readRequest srcPath toMove total)
        if r.2.1 < 0 then (some (-Eio), r.1)
        else
          let w := driveCall r.1 di (writeRequest dstPath r.2.2 r.2.1.toNat total)
          if w.2.1 < 0 then (some (-Eio), w.1)
          else copyLoop srcPath dstPath si di size fuel w.1 (total + w.2.1.toNat)

/-- StorageAccelerator::renameFile.  After the namespace checks, when source
and destination route to different drives and the source is a regular file,
the data is streamed between the drives (`copyLoop`) and a DELETE is sent to
the source drive; only then (or directly, otherwise) is the metadata moved:
insert at the destination, erase at the source. -/
def renameFile (route : String → Nat) (st : AccelState)
    (srcPath dstPath : String) (fuel : Nat) : Option Int × AccelState :=
  match getMetadata st.ns srcPath with
  | none => (some (-ENOENT), st)
  | some srcMd =>
    if existsMeta st.ns dstPath then (some (-EEXIST), st)
    else
      let si := route srcPath
      let di := route dstPath
      let moveMeta := fun (s : AccelState) =>
        { s with ns := removeMetadata (addMetadata s.ns dstPath srcMd) srcPath }
      if si ≠ di ∧ (srcMd.mode &&& SIFMT) = SIFREG then
        match copyLoop srcPath dstPath si di srcMd.size fuel st 0 with
        | (none, st1) => (none, st1)
        | (some e, st1) =>
          if e < 0 then (some e, st1)
          else
            let c := driveCall st1 si (deleteRequest srcPath)
            (some 0, moveMeta c.1)
      else (some 0, moveMeta st)

/-- The MetadataManager constructor seeds the root entry; the
StorageAccelerator constructor builds `numDrives` empty drives. -/
def rootMetadata (uid gid now : Nat) : FileMetadata :=
  { mode := SIFDIR ||| 0o755, nlink := 2, uid := uid, gid := gid, size := 0,
    atime := now, mtime := now, ctime := now }

def initState (numDrives uid gid now : Nat) : AccelState :=
  { ns := [("/", rootMetadata uid gid now)],
    drives := List.replicate numDrives [] }

/-! ## The accelerator operations as one step relation -/

/-- One call into the StorageAccelerator API, carrying the external inputs
the call consumes (times, timeout outcomes, loop fuel). -/
inductive AccelOp where
  | opCreateFile (path : String) (mode now : Nat)
  | opCreateDir (path : String) (mode now : Nat)
  | opDeleteFile (path : String) (timedOut : Bool)
  | opRemoveDir (path : String)
  | opRename (srcPath dstPath : String) (fuel : Nat)
  | opChmod (path : String) (mode now : Nat)
  | opChown (path : String) (uid gid now : Nat)
  | opTruncate (path : String) (size : Nat) (timedOut : Bool) (now : Nat)
  | opUtimens (path : String) (anew mnew : Nat)
  | opRead (path : String) (size offset fuel : Nat)
  | opWrite (path : String) (data : List Nat) (offset fuel : Nat)
deriving DecidableEq

/-- The state after one accelerator call. -/
def applyOp (route : String → Nat) (uid gid : Nat) (st : AccelState) :
    AccelOp → AccelState
  | .opCreateFile p m now => (createFile st p m uid gid now).2
  | .opCreateDir p m now => (createDirectory st p m uid gid now).2
  | .opDeleteFile p t => (deleteFile route st p t).2
  | .opRemoveDir p => (removeDirectory st p).2
  | .opRename s d fuel => (renameFile route st s d fuel).2
  | .opChmod p m now => (chmodFile st p m now).2
  | .opChown p u g now => (chownFile st p u g now).2
  | .opTruncate p sz t now => (truncateFile route st p sz t now).2
  | .opUtimens p a m => (utimensFile st p a m).2
  | .opRead p sz off fuel => (readFile route st p sz off fuel).2.1
  | .opWrite p data off fuel => (writeFile route st p data off fuel).2


/-! ## Helper lemmas -/

theorem mapLookup_erase_ne {α : Type} (m : List (String × α)) (p q : String)
    (h : q ≠ p) : mapLookup (mapErase m p) q = mapLookup m q := by
  induction m with
  | nil => rfl
  | cons e es ih =>
    by_cases he : e.1 = p
    · have hq : ¬ e.1 = q := fun hh => h ((hh ▸ he : q = p))
      rw [mapErase, if_pos he, ih, mapLookup, if_neg hq]
    · rw [mapErase, if_neg he]
      by_cases heq : e.1 = q
      · rw [mapLookup, if_pos heq, mapLookup, if_pos heq]
      · rw [mapLookup, if_neg heq, mapLookup, if_neg heq, ih]

theorem mapLookup_insert_ne {α : Type} (m : List (String × α)) (p q : String)
    (v : α) (h : q ≠ p) : mapLookup (mapInsert m p v) q = mapLookup m q := by
  have hp : p ≠ q := fun hh => h hh.symm
  simp [mapInsert, mapLookup, hp]
  exact mapLookup_erase_ne m p q h

theorem existsMeta_true_of_lookup (m : MetaMap) (p : String) (md : FileMetadata)
    (h : getMetadata m p = some md) : existsMeta m p = true := by
  simp [existsMeta, getMetadata] at h ⊢
  rw [h]
  rfl

theorem lookup_none_of_existsMeta_false (m : MetaMap) (p : String)
    (h : existsMeta m p = false) : getMetadata m p = none := by
  simp [existsMeta] at h
  exact h

theorem driveCall_ns (st : AccelState) (i : Nat) (req : IoRequest) :
    ((driveCall st i req).1).ns = st.ns := rfl

theorem readLoop_ns (route : String → Nat) (path : String) (offset : Nat) :
    ∀ (fuel : Nat) (st : AccelState) (total remaining : Nat) (acc : List Nat),
      ((readLoop route path offset fuel st total remaining acc).2.1).ns = st.ns := by
  intro fuel
  induction fuel with
  | zero =>
    intro st total remaining acc
    rw [readLoop]
    split <;> rfl
  | succ n ih =>
    intro st total remaining acc
    rw [readLoop]
    split
    · rfl
    · dsimp only
      split
      · rfl
      · exact ih _ _ _ _

theorem writeLoop_ns (route : String → Nat) (path : String) (offset : Nat) :
    ∀ (fuel : Nat) (st : AccelState) (total : Nat) (pending : List Nat),
      ((writeLoop route path offset fuel st total pending).2).ns = st.ns := by
  intro fuel
  induction fuel with
  | zero =>
    intro st total pending
    rw [writeLoop]
    split <;> rfl
  | succ n ih =>
    intro st total pending
    rw [writeLoop]
    split
    · rfl
    · dsimp only
      split
      · rfl
      · exact ih _ _ _

theorem copyLoop_ns (srcPath dstPath : String) (si di : Nat) (size : Nat) :
    ∀ (fuel : Nat) (st : AccelState) (total : Nat),
      ((copyLoop srcPath dstPath si di size fuel st total).2).ns = st.ns := by
  intro fuel
  induction fuel with
  | zero =>
    intro st total
    rw [copyLoop]
    split <;> rfl
  | succ n ih =>
    intro st total
    rw [copyLoop]
    split
    · rfl
    · dsimp only
      split
      · rfl
      · split
        · rfl
        · exact ih _ _

/-! ## The claims -/

/-- C1.  The spec's P2 (write `s` bytes at `o`, then an immediate read of `s`
bytes at `o` returns `s` and the same bytes) fails on the code: the closing
size update of `writeFile` is applied to the snapshot copy returned by
`MetadataManager::getMetadata`, so `meta.size` stays 0 and the following
`readFile` takes the `offset >= meta.size` EOF path and returns 0, not `s`.
The repository's own test (`src/unnamed/part_005`, BasicFileOperations)
asserts the claimed behavior, so this is a code bug.  Evaluated here at the
failing input for every routing function: createFile, then
writeFile("/a", "hello", 5, 0) returns 5, and the immediate
readFile("/a", buf, 5, 0) returns 0. -/
def c1Create (t : Nat) : Int × AccelState :=
  createFile (initState 4 1000 1000 t) "/a" 0o644 1000 1000 t

def c1Write (route : String → Nat) (t : Nat) : Option Int × AccelState :=
  writeFile route (c1Create t).2 "/a" [104, 101, 108, 108, 111] 0 6

def c1Read (route : String → Nat) (t : Nat) :
    Option Int × AccelState × List Nat :=
  readFile route (c1Write route t).2 "/a" 5 0 6

theorem claim1_write_then_read_lost :
    ∀ (route : String → Nat) (t : Nat),
      (c1Create t).1 = 0 ∧ (c1Write route t).1 = some 5 ∧
        (c1Read route t).1 = some 0 :=
  fun _ _ => ⟨rfl, rfl, rfl⟩

/-- C3.  The spec's chmod contract fails on the code: chmodFile assigns the
new mode and ctime to the snapshot copy built by MetadataManager::getMetadata
and never writes it back, so the call returns 0 but a subsequent getMetadata
still sees the old permission bits and the old ctime.  Evaluated at the
failing input: createFile("/a", 0644) at time 3, chmodFile("/a", 0640) at
time 7, then getMetadata("/a") still returns mode S_IFREG|0644 with ctime 3. -/
def c3Chmod : Int × AccelState :=
  chmodFile (createFile (initState 4 1000 1000 3) "/a" 0o644 1000 1000 3).2
    "/a" 0o640 7

theorem claim3_chmod_snapshot_lost :
    c3Chmod.1 = 0 ∧ getMetadata c3Chmod.2.ns "/a" =
      some ({ mode := SIFREG ||| 0o644, nlink := 1, uid := 1000, gid := 1000,
              size := 0, atime := 3, mtime := 3, ctime := 3 } : FileMetadata) :=
  ⟨rfl, rfl⟩

/-- C4.  The claim (after the worker executes DELETE(P), P is absent from the
drive's storage map and the promise gets 0) fails on the code: the switch in
SSD_Simulator::processIO of `src/unnamed/part_008` has no DELETE case, so a
DELETE request falls through with result 0 and the storage map untouched —
for every drive storage and path, the entry survives. -/
theorem claim4_drive_delete_noop (st : DriveStore) (path : String) :
    processRequest st (deleteRequest path) =
      { store := st, result := 0, readData := [] } := rfl

/-- C6.  SSD_Simulator::enqueueIO on a full queue (1000 pending requests or
more): the request's promise is completed with -EBUSY and the queue is left
unchanged — the request is not enqueued, and the submitter gets the
completion immediately instead of blocking. -/
theorem claim6_queue_full_busy (q : List IoRequest) (req : IoRequest)
    (hq : MAX_QUEUE_SIZE ≤ q.length) (hp : req.hasPromise = true) :
    enqueueIo q req = (q, some (-EBUSY)) := by
  have hfull : isQueueFull q = true := decide_eq_true hq
  rw [enqueueIo, if_pos hfull, hp, if_pos rfl]

def fullQueue : List IoRequest := List.replicate 1000 (deleteRequest "/x")

/-- Witness for C6 at a concrete full queue. -/
theorem claim6_queue_full_busy_witness :
    enqueueIo fullQueue (deleteRequest "/y") = (fullQueue, some (-EBUSY)) :=
  claim6_queue_full_busy fullQueue (deleteRequest "/y")
    (by rw [fullQueue, List.length_replicate]; exact Nat.le_refl 1000) rfl

/-- C10.  deleteFile whose drive DELETE wait times out returns -ETIMEDOUT
before `removeMetadata`, so the namespace entry survives and a subsequent
getMetadata still returns the record. -/
theorem claim10_delete_timeout_keeps_entry (route : String → Nat)
    (st : AccelState) (path : String) (md : FileMetadata)
    (h1 : getMetadata st.ns path = some md)
    (h2 : md.mode &&& SIFMT = SIFREG) :
    (deleteFile route st path true).1 = -ETIMEDOUT ∧
      getMetadata (deleteFile route st path true).2.ns path = some md := by
  have hd : deleteFile route st path true = (-ETIMEDOUT, st) := by
    rw [deleteFile, h1]
    dsimp only
    rw [h2, if_neg (fun hh => hh rfl), if_pos rfl]
  rw [hd]
  exact ⟨rfl, h1⟩

def mdTimeoutW : FileMetadata :=
  { mode := SIFREG ||| 0o644, nlink := 1, uid := 1000, gid := 1000, size := 0,
    atime := 0, mtime := 0, ctime := 0 }

def stTimeoutW : AccelState := { ns := [("/d", mdTimeoutW)], drives := [[]] }

/-- Witness for C10 at a concrete state. -/
theorem claim10_witness :
    (deleteFile (fun _ => 0) stTimeoutW "/d" true).1 = -ETIMEDOUT ∧
      getMetadata (deleteFile (fun _ => 0) stTimeoutW "/d" true).2.ns "/d" =
        some mdTimeoutW :=
  claim10_delete_timeout_keeps_entry (fun _ => 0) stTimeoutW "/d" mdTimeoutW rfl
    (by decide)


/-- One unfolding of the read block loop when bytes remain. -/
theorem readLoop_succ (route : String → Nat) (path : String)
    (offset fuel total remaining : Nat) (st : AccelState) (acc : List Nat)
    (hrem : ¬ remaining = 0) :
    readLoop route path offset (fuel + 1) st total remaining acc =
      (let i := route (chunkKey path (offset + total))
       let c := driveCall st i
         (readRequest path (min remaining BLOCK_SIZE) (offset + total))
       if c.2.1 < 0 then (some c.2.1, c.1, acc)
       else readLoop route path offset fuel c.1 (total + c.2.1.toNat)
         (remaining - c.2.1.toNat) (acc ++ c.2.2)) := by
  rw [readLoop, if_neg hrem]

def mdChunkFail : FileMetadata :=
  { mode := SIFREG ||| 0o644, nlink := 1, uid := 0, gid := 0, size := 10,
    atime := 0, mtime := 0, ctime := 0 }

def stChunkFail : AccelState :=
  { ns := [("/f", mdChunkFail)], drives := [[("/f", [9, 9, 9])], []] }

def mdZeroChunk : FileMetadata :=
  { mode := SIFREG ||| 0o644, nlink := 1, uid := 0, gid := 0, size := 5,
    atime := 0, mtime := 0, ctime := 0 }

def stZeroChunk : AccelState :=
  { ns := [("/g", mdZeroChunk)], drives := [[("/g", [])]] }

/-- C5 counterexample.  The claim — a non-positive chunk result ends the
block loop, and the already-transferred partial count is returned when bytes
were transferred — is false at two concrete inputs.  First: "/f" has
meta.size 10, its first chunk (3 bytes on drive 0) succeeds, the next chunk
routes to drive 1 which has no entry, and readFile returns -ENOENT instead of
the partial count 3.  Second: "/g" has meta.size 5 and its drive entry holds
0 available bytes, so every chunk completes with 0 and the loop never exits
(`none` = still looping when the model stops unfolding). -/
theorem claim5_block_loop_cex :
    (readFile (fun k => if k == "/f:0" then 0 else 1) stChunkFail "/f" 10 0 5).1
        = some (-ENOENT) ∧
    (readFile (fun _ => 0) stZeroChunk "/g" 5 0 3).1 = none :=
  ⟨rfl, rfl⟩

/-- C5 as amended.  In the block loop of readFile: (a) only a strictly
negative chunk result ends the loop early, and that negative value is
surfaced to the caller even when bytes were already transferred (`total` is
arbitrary below); (b) a chunk result of 0 does not end the loop — when the
drive selected for the current chunk holds an entry with no bytes at the
current offset, the loop repeats with unchanged progress and never returns,
for every unfolding depth. -/
theorem claim5_block_loop_amended :
    (∀ (route : String → Nat) (path : String) (offset fuel total remaining : Nat)
        (st : AccelState) (acc : List Nat),
      ¬ remaining = 0 →
      (processRequest (st.drives.getD (route (chunkKey path (offset + total))) [])
          (readRequest path (min remaining BLOCK_SIZE) (offset + total))).result < 0 →
      (readLoop route path offset (fuel + 1) st total remaining acc).1 =
        some (processRequest
          (st.drives.getD (route (chunkKey path (offset + total))) [])
          (readRequest path (min remaining BLOCK_SIZE) (offset + total))).result) ∧
    (∀ (route : String → Nat) (path : String) (offset : Nat) (fuel : Nat)
        (st : AccelState) (total remaining : Nat) (acc : List Nat) (v : List Nat),
      ¬ remaining = 0 →
      route (chunkKey path (offset + total)) < st.drives.length →
      dsLookup (st.drives.getD (route (chunkKey path (offset + total))) []) path
        = some v →
      v.length ≤ offset + total →
      (readLoop route path offset fuel st total remaining acc).1 = none) := by
  constructor
  · intro route path offset fuel total remaining st acc hrem hneg
    rw [readLoop_succ route path offset fuel total remaining st acc hrem]
    dsimp only [driveCall]
    rw [if_pos hneg]
  · intro route path offset fuel
    induction fuel with
    | zero =>
      intro st total remaining acc v hrem _ _ _
      rw [readLoop, if_neg hrem]
    | succ n ih =>
      intro st total remaining acc v hrem hlt hlook hlen
      rw [readLoop_succ route path offset n total remaining st acc hrem]
      dsimp only [driveCall]
      have hres : (processRequest
          (st.drives.getD (route (chunkKey path (offset + total))) [])
          (readRequest path (min remaining BLOCK_SIZE) (offset + total)))
          = { store := st.drives.getD (route (chunkKey path (offset + total))) [],
              result := 0, readData := [] } := by
        rw [processRequest]
        dsimp only [readRequest]
        rw [hlook]
        dsimp only
        rw [if_neg (Nat.not_lt.mpr hlen)]
        simp
      rw [hres]
      dsimp only
      rw [if_neg (lt_irrefl 0)]
      have hzero : Int.toNat 0 = 0 := rfl
      rw [hzero, Nat.add_zero, Nat.sub_zero, List.append_nil]
      exact ih _ total remaining acc v hrem
        (by rw [List.length_set]; exact hlt)
        (by rw [List.getD_eq_getElem?_getD, List.getElem?_set_self hlt]
            exact hlook)
        hlen

def mdNeverWritten : FileMetadata :=
  { mode := SIFREG ||| 0o644, nlink := 1, uid := 0, gid := 0, size := 0,
    atime := 0, mtime := 0, ctime := 0 }

def stNeverWritten : AccelState := { ns := [("/a", mdNeverWritten)], drives := [[]] }

def stWrittenOnce : AccelState :=
  { ns := [("/a", mdNeverWritten)], drives := [[("/a", [1, 2, 3])]] }

/-- C7 counterexample.  The claim — truncateFile of an existing regular file
returns 0 (failing only with not-found or is-directory) and on success sets
meta.size — is false at two concrete inputs: "/a" exists in the namespace but
was never written, so the drive TRUNCATE fails and truncateFile returns
-ENOENT; and for a written "/a" the call returns 0 but the namespace record
keeps its old size, because the size/mtime/ctime assignment lands on the
snapshot copy. -/
theorem claim7_truncate_cex :
    (truncateFile (fun _ => 0) stNeverWritten "/a" 7 false 9).1 = -ENOENT ∧
    (truncateFile (fun _ => 0) stWrittenOnce "/a" 7 false 9).1 = 0 ∧
    getMetadata (truncateFile (fun _ => 0) stWrittenOnce "/a" 7 false 9).2.ns "/a"
      = some mdNeverWritten :=
  ⟨rfl, rfl, rfl⟩

/-- C7 as amended.  For an existing regular file P (no timeout): when the
selected drive has no storage entry for P — in particular when nothing was
ever written to P — the drive TRUNCATE fails not-found and truncateFile
returns -ENOENT; when the drive has an entry, truncateFile returns 0.  In
both cases the namespace is unchanged: the meta.size/mtime/ctime update is
applied to the snapshot copy and lost. -/
theorem claim7_truncate_amended :
    (∀ (route : String → Nat) (st : AccelState) (path : String) (size now : Nat)
        (md : FileMetadata),
      getMetadata st.ns path = some md → md.mode &&& SIFMT = SIFREG →
      dsLookup (st.drives.getD (route path) []) path = none →
      (truncateFile route st path size false now).1 = -ENOENT ∧
        (truncateFile route st path size false now).2.ns = st.ns) ∧
    (∀ (route : String → Nat) (st : AccelState) (path : String) (size now : Nat)
        (md : FileMetadata) (v : List Nat),
      getMetadata st.ns path = some md → md.mode &&& SIFMT = SIFREG →
      dsLookup (st.drives.getD (route path) []) path = some v →
      (truncateFile route st path size false now).1 = 0 ∧
        (truncateFile route st path size false now).2.ns = st.ns) := by
  constructor
  · intro route st path size now md h1 h2 hlook
    have ht : truncateFile route st path size false now =
        (-ENOENT, (driveCall st (route path) (truncRequest path size)).1) := by
      rw [truncateFile, h1]
      dsimp only
      rw [h2, if_neg (fun hh => hh rfl), if_neg Bool.false_ne_true]
      dsimp only [driveCall]
      have hres : (processRequest (st.drives.getD (route path) [])
          (truncRequest path size))
          = { store := st.drives.getD (route path) [], result := -ENOENT,
              readData := [] } := by
        rw [processRequest]
        dsimp only [truncRequest]
        rw [hlook]
      rw [hres]
      dsimp only
      rw [if_pos (by decide : -ENOENT < (0 : Int))]
    rw [ht]
    exact ⟨rfl, rfl⟩
  · intro route st path size now md v h1 h2 hlook
    have ht : truncateFile route st path size false now =
        (0, (driveCall st (route path) (truncRequest path size)).1) := by
      rw [truncateFile, h1]
      dsimp only
      rw [h2, if_neg (fun hh => hh rfl), if_neg Bool.false_ne_true]
      dsimp only [driveCall]
      have hres : (processRequest (st.drives.getD (route path) [])
          (truncRequest path size))
          = { store := mapInsert (st.drives.getD (route path) []) path
                (vecResize v size), result := 0, readData := [] } := by
        rw [processRequest]
        dsimp only [truncRequest]
        rw [hlook]
      rw [hres]
      dsimp only
      rw [if_neg (lt_irrefl 0)]
    rw [ht]
    exact ⟨rfl, rfl⟩

/-- C8.  When renameFile returns -Eio (which it does exactly when a chunk
READ or WRITE of the cross-drive copy completed with a negative result), the
namespace has not been touched: the source entry is still present with its
original metadata and the destination is still absent. -/
theorem claim8_rename_failure_atomic (route : String → Nat)
    (st st2 : AccelState) (srcPath dstPath : String) (m : FileMetadata)
    (fuel : Nat)
    (h1 : getMetadata st.ns srcPath = some m)
    (h2 : existsMeta st.ns dstPath = false)
    (hr : renameFile route st srcPath dstPath fuel = (some (-Eio), st2)) :
    st2.ns = st.ns ∧ getMetadata st2.ns srcPath = some m ∧
      getMetadata st2.ns dstPath = none := by
  have hns : st2.ns = st.ns := by
    rw [renameFile, h1] at hr
    dsimp only at hr
    rw [h2, if_neg Bool.false_ne_true] at hr
    split at hr
    · split at hr
      next st1 heq =>
        exact absurd (congrArg Prod.fst hr) (by simp)
      next e st1 heq =>
        split at hr
        · have hst : st1 = st2 := congrArg Prod.snd hr
          have := copyLoop_ns srcPath dstPath (route srcPath) (route dstPath)
            m.size fuel st 0
          rw [heq] at this
          rw [← hst]
          exact this
        · have : (some (0 : Int)) = some (-Eio) := congrArg Prod.fst hr
          simp [Eio] at this
    · have : (some (0 : Int)) = some (-Eio) := congrArg Prod.fst hr
      simp [Eio] at this
  refine ⟨hns, ?_, ?_⟩
  · rw [hns]; exact h1
  · rw [hns]; exact lookup_none_of_existsMeta_false _ _ h2

def mdCross : FileMetadata :=
  { mode := SIFREG ||| 0o644, nlink := 1, uid := 0, gid := 0, size := 5,
    atime := 0, mtime := 0, ctime := 0 }

def stCross : AccelState := { ns := [("/f", mdCross)], drives := [[], []] }

/-- Witness for C8: a concrete cross-drive rename whose first chunk READ
fails (the source drive holds no entry), evaluated to (-Eio, unchanged). -/
theorem claim8_witness :
    stCross.ns = stCross.ns ∧ getMetadata stCross.ns "/f" = some mdCross ∧
      getMetadata stCross.ns "/t" = none :=
  claim8_rename_failure_atomic (fun k => if k == "/f" then 0 else 1) stCross
    stCross "/f" "/t" mdCross 3 rfl rfl rfl


/-! ## The load balancer (spec-modelled) -/

/-- `MAX_PENDING_OPS` from include/storage_accelerator/load_balancer.h. -/
def MAX_PENDING_OPS : Nat := 1000

/-- Modelled from the spec: the body of `LoadBalancer::selectDrive` is not
among the repository's files (only its declaration in
include/storage_accelerator/load_balancer.h is).  Per §4.4 the fallback scan
visits all drives in index order and keeps the index whose pending-ops count
is strictly below the running best, so ties keep the first-seen index. -/
def scanFrom (pending : List Nat) : List Nat → Nat → Nat
  | [], best => best
  | i :: is, best =>
    scanFrom pending is (if pending.getD i 0 < pending.getD best 0 then i else best)

/-- Modelled from the spec: `selectDrive(primary, size)` returns `primary`
when `pending_ops[primary] < THRESHOLD` (default 1000), else the index with
the minimum pending-ops count, ties broken by lowest index. -/
def lbSelectDrive (pending : List Nat) (primary : Nat) : Nat :=
  if pending.getD primary 0 < MAX_PENDING_OPS then primary
  else scanFrom pending (List.range pending.length) 0

theorem scanFrom_append (pending : List Nat) (is : List Nat) (j : Nat) :
    ∀ b, scanFrom pending (is ++ [j]) b =
      (if pending.getD j 0 < pending.getD (scanFrom pending is b) 0 then j
       else scanFrom pending is b) := by
  induction is with
  | nil => intro b; rfl
  | cons i is ih => intro b; rw [List.cons_append, scanFrom, scanFrom, ih]

theorem scanFrom_range_min (pending : List Nat) :
    ∀ n : Nat, (0 < n → scanFrom pending (List.range n) 0 < n) ∧
      (n = 0 → scanFrom pending (List.range n) 0 = 0) ∧
      (∀ j, j < n →
        pending.getD (scanFrom pending (List.range n) 0) 0 ≤ pending.getD j 0) ∧
      (∀ j, j < scanFrom pending (List.range n) 0 →
        pending.getD (scanFrom pending (List.range n) 0) 0 < pending.getD j 0) := by
  intro n
  induction n with
  | zero =>
    refine ⟨fun h => absurd h (lt_irrefl 0), fun _ => by rw [List.range_zero]; rfl,
      fun j hj => absurd hj (Nat.not_lt_zero j), fun j hj => ?_⟩
    rw [List.range_zero] at hj
    exact absurd hj (Nat.not_lt_zero j)
  | succ n ih =>
    obtain ⟨ihlt, ihz, ihmin, ihfirst⟩ := ih
    rw [List.range_succ, scanFrom_append]
    by_cases hlt : pending.getD n 0 < pending.getD (scanFrom pending (List.range n) 0) 0
    · rw [if_pos hlt]
      refine ⟨fun _ => Nat.lt_succ_self n, fun h => absurd h (Nat.succ_ne_zero n),
        fun j hj => ?_, fun j hj => ?_⟩
      · rcases Nat.lt_succ_iff_lt_or_eq.mp hj with hj | hj
        · exact Nat.le_of_lt (Nat.lt_of_lt_of_le hlt (ihmin j hj))
        · rw [hj]
      · exact Nat.lt_of_lt_of_le hlt (ihmin j hj)
    · rw [if_neg hlt]
      rcases Nat.eq_zero_or_pos n with hn | hn
      · subst hn
        have hz : scanFrom pending (List.range 0) 0 = 0 := ihz rfl
        rw [hz]
        refine ⟨fun _ => Nat.zero_lt_one, fun h => rfl, fun j hj => ?_,
          fun j hj => absurd hj (Nat.not_lt_zero j)⟩
        have : j = 0 := Nat.lt_one_iff.mp hj
        rw [this]
      · refine ⟨fun _ => Nat.lt_succ_of_lt (ihlt hn),
          fun h => absurd h (Nat.succ_ne_zero n), fun j hj => ?_, ihfirst⟩
        rcases Nat.lt_succ_iff_lt_or_eq.mp hj with hj | hj
        · exact ihmin j hj
        · rw [hj]; exact Nat.not_lt.mp hlt

/-- C9.  lbSelectDrive returns the primary drive whenever its pending-ops
count is below the threshold 1000; otherwise it returns the index holding the
minimum pending-ops count, and any index carrying the same count is not
smaller (ties broken by lowest index: every strictly smaller index carries a
strictly larger count). -/
theorem claim9_select_drive (pending : List Nat) (primary : Nat)
    (hp : primary < pending.length) :
    (pending.getD primary 0 < MAX_PENDING_OPS →
      lbSelectDrive pending primary = primary) ∧
    (MAX_PENDING_OPS ≤ pending.getD primary 0 →
      lbSelectDrive pending primary < pending.length ∧
      (∀ j, j < pending.length →
        pending.getD (lbSelectDrive pending primary) 0 ≤ pending.getD j 0) ∧
      (∀ j, j < lbSelectDrive pending primary →
        pending.getD (lbSelectDrive pending primary) 0 < pending.getD j 0)) := by
  constructor
  · intro h
    rw [lbSelectDrive, if_pos h]
  · intro h
    have hn : ¬ pending.getD primary 0 < MAX_PENDING_OPS := Nat.not_lt.mpr h
    rw [lbSelectDrive, if_neg hn]
    have hpos : 0 < pending.length := Nat.lt_of_le_of_lt (Nat.zero_le primary) hp
    obtain ⟨ha, _, hc, hd⟩ := scanFrom_range_min pending pending.length
    exact ⟨ha hpos, hc, hd⟩

/-- Witness for C9 at the pending-ops table [1000, 5, 5] with primary 0: the
primary is saturated, and the scan selects index 1 (count 5), the lowest of
the two tied minima. -/
theorem claim9_witness :
    (List.getD [1000, 5, 5] 0 0 < MAX_PENDING_OPS →
      lbSelectDrive [1000, 5, 5] 0 = 0) ∧
    (MAX_PENDING_OPS ≤ List.getD [1000, 5, 5] 0 0 →
      lbSelectDrive [1000, 5, 5] 0 < List.length [1000, 5, 5] ∧
      (∀ j, j < List.length [1000, 5, 5] →
        List.getD [1000, 5, 5] (lbSelectDrive [1000, 5, 5] 0) 0
          ≤ List.getD [1000, 5, 5] j 0) ∧
      (∀ j, j < lbSelectDrive [1000, 5, 5] 0 →
        List.getD [1000, 5, 5] (lbSelectDrive [1000, 5, 5] 0) 0
          < List.getD [1000, 5, 5] j 0)) :=
  claim9_select_drive [1000, 5, 5] 0 (by decide)


/-- C2 counterexample.  removeDirectory("/") on the freshly initialized
namespace passes every check (listDirectory("/") excludes "/" itself, so the
empty namespace looks empty) and erases the root: afterwards getMetadata("/")
returns the absent marker, refuting "the namespace contains '/' from
initialization until shutdown ... after any sequence of accelerator
operations (including removeDirectory('/'))". -/
theorem claim2_root_removable :
    (removeDirectory (initState 4 1000 1000 0) "/").1 = 0 ∧
    getMetadata (removeDirectory (initState 4 1000 1000 0) "/").2.ns "/" = none :=
  ⟨rfl, rfl⟩

/-- C2 as amended.  The namespace contains "/" from initialization — a
directory record with nlink = 2 — and every accelerator operation other than
removeDirectory("/") itself and a rename whose source is "/" preserves the
root entry unchanged (removeDirectory("/") on an otherwise-empty namespace,
and renameFile("/", d) for fresh d, do remove it). -/
theorem claim2_root_amended :
    (∀ numDrives uid gid now : Nat,
      getMetadata (initState numDrives uid gid now).ns "/"
        = some (rootMetadata uid gid now) ∧
      (rootMetadata uid gid now).nlink = 2 ∧
      (rootMetadata uid gid now).mode &&& SIFMT = SIFDIR) ∧
    (∀ (route : String → Nat) (uid gid : Nat) (st : AccelState)
        (rm : FileMetadata) (op : AccelOp),
      getMetadata st.ns "/" = some rm →
      rm.mode &&& SIFMT ≠ SIFREG →
      op ≠ AccelOp.opRemoveDir "/" →
      (∀ d fl, op ≠ AccelOp.opRename "/" d fl) →
      getMetadata (applyOp route uid gid st op).ns "/" = some rm) := by
  constructor
  · intro numDrives uid gid now
    exact ⟨rfl, rfl, (by decide : (SIFDIR ||| 0o755) &&& SIFMT = SIFDIR)⟩
  · intro route uid gid st rm op hroot hnreg hop1 hop2
    cases op with
    | opCreateFile p m now =>
      dsimp only [applyOp, createFile]
      split
      · exact hroot
      · next he =>
        have hp : "/" ≠ p := by
          intro hh
          rw [← hh] at he
          exact he (existsMeta_true_of_lookup _ _ _ hroot)
        dsimp only
        exact (mapLookup_insert_ne st.ns p "/" _ hp).trans hroot
    | opCreateDir p m now =>
      dsimp only [applyOp, createDirectory]
      split
      · exact hroot
      · next he =>
        have hp : "/" ≠ p := by
          intro hh
          rw [← hh] at he
          exact he (existsMeta_true_of_lookup _ _ _ hroot)
        dsimp only
        exact (mapLookup_insert_ne st.ns p "/" _ hp).trans hroot
    | opDeleteFile p t =>
      dsimp only [applyOp, deleteFile]
      cases hm : getMetadata st.ns p with
      | none => exact hroot
      | some md =>
        dsimp only
        by_cases hreg : (md.mode &&& SIFMT) ≠ SIFREG
        · rw [if_pos hreg]
          exact hroot
        · rw [if_neg hreg]
          have hp : "/" ≠ p := by
            intro hh
            rw [← hh, hroot] at hm
            cases hm
            exact hnreg (not_not.mp hreg)
          cases t with
          | true => exact hroot
          | false =>
            rw [if_neg Bool.false_ne_true]
            exact (mapLookup_erase_ne _ p "/" hp).trans hroot
    | opRemoveDir p =>
      have hp : "/" ≠ p := by
        intro hh
        exact hop1 (by rw [← hh])
      dsimp only [applyOp, removeDirectory]
      cases hm : getMetadata st.ns p with
      | none => exact hroot
      | some md =>
        dsimp only
        split
        · exact hroot
        · split
          · exact hroot
          · exact (mapLookup_erase_ne _ p "/" hp).trans hroot
    | opRename srcPath dstPath fl =>
      have hs : "/" ≠ srcPath := by
        intro hh
        exact hop2 dstPath fl (by rw [← hh])
      dsimp only [applyOp, renameFile]
      cases hm : getMetadata st.ns srcPath with
      | none => exact hroot
      | some srcMd =>
        dsimp only
        by_cases hE : existsMeta st.ns dstPath = true
        · rw [if_pos hE]
          exact hroot
        · rw [if_neg hE]
          have hd : "/" ≠ dstPath := by
            intro hh
            rw [← hh] at hE
            exact hE (existsMeta_true_of_lookup _ _ _ hroot)
          have hmove : ∀ s1 : AccelState, s1.ns = st.ns →
              getMetadata (removeMetadata (addMetadata s1.ns dstPath srcMd)
                srcPath) "/" = some rm := by
            intro s1 h1
            rw [h1]
            exact ((mapLookup_erase_ne _ srcPath "/" hs).trans
              (mapLookup_insert_ne st.ns dstPath "/" _ hd)).trans hroot
          split
          · -- cross-drive regular-file branch
            split
            · next st1 heq =>
              have := copyLoop_ns srcPath dstPath (route srcPath)
                (route dstPath) srcMd.size fl st 0
              rw [heq] at this
              exact this ▸ hroot
            · next e st1 heq =>
              have hns : st1.ns = st.ns := by
                have := copyLoop_ns srcPath dstPath (route srcPath)
                  (route dstPath) srcMd.size fl st 0
                rw [heq] at this
                exact this
              split
              · exact hns ▸ hroot
              · exact hmove _ hns
          · exact hmove st rfl
    | opChmod p m now =>
      dsimp only [applyOp, chmodFile]
      cases hm : getMetadata st.ns p <;> exact hroot
    | opChown p u g now =>
      dsimp only [applyOp, chownFile]
      cases hm : getMetadata st.ns p <;> exact hroot
    | opUtimens p a m =>
      dsimp only [applyOp, utimensFile]
      cases hm : getMetadata st.ns p <;> exact hroot
    | opTruncate p sz t now =>
      dsimp only [applyOp, truncateFile]
      cases hm : getMetadata st.ns p with
      | none => exact hroot
      | some md =>
        dsimp only
        split
        · exact hroot
        · cases t with
          | true => exact hroot
          | false =>
            rw [if_neg Bool.false_ne_true]
            split
            · exact hroot
            · exact hroot
    | opRead p sz off fl =>
      dsimp only [applyOp, readFile]
      cases hm : getMetadata st.ns p with
      | none => exact hroot
      | some md =>
        dsimp only
        split
        · exact hroot
        · rw [readLoop_ns]
          exact hroot
    | opWrite p data off fl =>
      dsimp only [applyOp, writeFile]
      cases hm : getMetadata st.ns p with
      | none => exact hroot
      | some md =>
        dsimp only
        rw [writeLoop_ns]
        exact hroot

end FuseSsd
